import Mathlib

/-!
Verification development for the gimg-web image toolkit.

The repository's own logic (format sniffing, input validation, output-path
resolution, batch orchestration, the editor's ordered transform pipeline,
resize arithmetic, the HTTP upload gate and temp-file lifecycle) is embedded
shallowly below; pixel work delegated to the imaging library is modelled as
an opaque collaborator constrained only by its documented dimension contract.
Bytes are `Nat` values, file contents are `List Nat`, and Python's binary64
float arithmetic (used by resize) is modelled exactly by dyadic rationals
with round-to-nearest-even at 53 significant bits.
-/

set_option maxRecDepth 10000

/-- The closed format enumeration produced by the sniffer
(`src/gimg/utils.py`, `detect_format`); a missing match is `none`. -/
inductive Fmt
  | JPEG | PNG | GIF | WEBP | BMP | TIFF | HEIC | SVG
  deriving DecidableEq, Repr

/-- Bytes that Python's `bytes.lstrip()` removes: ASCII whitespace. -/
def isPyWhitespace (b : Nat) : Bool :=
  b == 32 || b == 9 || b == 10 || b == 13 || b == 11 || b == 12

/-- `detect_format` from `src/gimg/utils.py`: reads the first 32 bytes and
classifies by signature.  The file-open failure branch of the source returns
`None`; here the caller passes the bytes, so only the signature logic remains. -/
def detect_format (file : List Nat) : Option Fmt :=
  let header := file.take 32
  if header.take 3 = [0xff, 0xd8, 0xff] then some .JPEG
  else if header.take 8 = [137, 80, 78, 71, 13, 10, 26, 10] then some .PNG
  else if header.take 6 = [71, 73, 70, 56, 55, 97]
       ∨ header.take 6 = [71, 73, 70, 56, 57, 97] then some .GIF
  else if header.take 4 = [82, 73, 70, 70]
       ∧ (header.drop 8).take 4 = [87, 69, 66, 80] then some .WEBP
  else if header.take 2 = [66, 77] then some .BMP
  else if header.take 4 = [73, 73, 42, 0]
       ∨ header.take 4 = [77, 77, 0, 42] then some .TIFF
  else if 12 ≤ header.length
       ∧ (header.drop 4).take 4 = [102, 116, 121, 112]
       ∧ ((header.drop 8).take 4 = [104, 101, 105, 99]
          ∨ (header.drop 8).take 4 = [104, 101, 105, 120]
          ∨ (header.drop 8).take 4 = [104, 101, 118, 99]
          ∨ (header.drop 8).take 4 = [109, 105, 102, 49]
          ∨ (header.drop 8).take 4 = [109, 115, 102, 49]
          ∨ (header.drop 8).take 4 = [97, 118, 105, 102]) then some .HEIC
  else
    let stripped := header.dropWhile isPyWhitespace
    if stripped.take 5 = [60, 63, 120, 109, 108]
       ∨ stripped.take 4 = [60, 115, 118, 103] then some .SVG
    else none

/-- `MAX_FILE_SIZE` from `src/gimg/utils.py` (CLI size ceiling). -/
def MAX_FILE_SIZE : Nat := 50 * 1024 * 1024

/-- `MAX_UPLOAD` from `src/api/main.py` (network size ceiling). -/
def MAX_UPLOAD : Nat := 20 * 1024 * 1024

/-- The validation error taxonomy raised by `validate_input`
(the source raises `FileNotFoundError`/`ValueError`; the spec names them
`NotFoundError`, `TypeError`, `SizeLimitError`, `UnsupportedFormatError`). -/
inductive VErr
  | NotFoundError | TypeError | SizeLimitError | UnsupportedFormatError
  deriving DecidableEq, Repr

/-- The facts about a path that `validate_input` consults on the real
filesystem: existence, regular-file-ness, byte size, and the file's bytes. -/
structure FileStat where
  ex : Bool
  isFile : Bool
  size : Nat
  bytes : List Nat

/-- `validate_input` from `src/gimg/utils.py`: existence, regular file,
size ceiling (strict), then format sniff — in that order, before any decode. -/
def validate_input (f : FileStat) (maxSize : Nat := MAX_FILE_SIZE) :
    Except VErr Unit :=
  if ¬ f.ex then .error .NotFoundError
  else if ¬ f.isFile then .error .TypeError
  else if maxSize < f.size then .error .SizeLimitError
  else if detect_format f.bytes = none then .error .UnsupportedFormatError
  else .ok ()

/-- `ALLOWED_MAGIC` from `src/api/main.py`, in dict insertion order:
JPEG, PNG(4), GIF8, RIFF, BM, II, MM prefixes. -/
def allowedMagic : List (List Nat) :=
  [[0xff, 0xd8, 0xff], [137, 80, 78, 71], [71, 73, 70, 56],
   [82, 73, 70, 70], [66, 77], [73, 73], [77, 77]]

/-- `_validate_upload` from `src/api/main.py`: 413 when the payload strictly
exceeds `MAX_UPLOAD`, else 415 when no allowed magic prefix matches. -/
def validate_upload (data : List Nat) : Except Nat Unit :=
  if MAX_UPLOAD < data.length then .error 413
  else if allowedMagic.any (fun m => data.take m.length = m) then .ok ()
  else .error 415

/-- Header starts with the JPEG marker. -/
def sniffJPEG (h : List Nat) : Prop := h.take 3 = [0xff, 0xd8, 0xff]

/-- Header starts with the PNG signature. -/
def sniffPNG (h : List Nat) : Prop := h.take 8 = [137, 80, 78, 71, 13, 10, 26, 10]

/-- Header starts with GIF87a or GIF89a. -/
def sniffGIF (h : List Nat) : Prop :=
  h.take 6 = [71, 73, 70, 56, 55, 97] ∨ h.take 6 = [71, 73, 70, 56, 57, 97]

/-- Header starts with RIFF and has the WEBP marker at offset 8. -/
def sniffWEBP (h : List Nat) : Prop :=
  h.take 4 = [82, 73, 70, 70] ∧ (h.drop 8).take 4 = [87, 69, 66, 80]

/-- Header starts with the BMP marker. -/
def sniffBMP (h : List Nat) : Prop := h.take 2 = [66, 77]

/-- Header starts with either TIFF byte-order marker. -/
def sniffTIFF (h : List Nat) : Prop :=
  h.take 4 = [73, 73, 42, 0] ∨ h.take 4 = [77, 77, 0, 42]

/-- Header holds an ISO ftyp box whose brand is in the HEIC/AVIF brand set. -/
def sniffHEIC (h : List Nat) : Prop :=
  12 ≤ h.length ∧ (h.drop 4).take 4 = [102, 116, 121, 112]
  ∧ ((h.drop 8).take 4 = [104, 101, 105, 99]
     ∨ (h.drop 8).take 4 = [104, 101, 105, 120]
     ∨ (h.drop 8).take 4 = [104, 101, 118, 99]
     ∨ (h.drop 8).take 4 = [109, 105, 102, 49]
     ∨ (h.drop 8).take 4 = [109, 115, 102, 49]
     ∨ (h.drop 8).take 4 = [97, 118, 105, 102])

/-- After stripping leading ASCII whitespace, the header starts with
an xml declaration or an svg tag (what the source actually tests). -/
def sniffSVGStrip (h : List Nat) : Prop :=
  (h.dropWhile isPyWhitespace).take 5 = [60, 63, 120, 109, 108]
  ∨ (h.dropWhile isPyWhitespace).take 4 = [60, 115, 118, 103]

/-- A literally *leading* xml declaration or svg tag (what the claim says). -/
def sniffSVGLeading (h : List Nat) : Prop :=
  h.take 5 = [60, 63, 120, 109, 108] ∨ h.take 4 = [60, 115, 118, 103]

/-- C3 (counterexample). A header of a single space followed by an svg tag is
classified as SVG by `detect_format`, yet it leads with neither `<?xml` nor
`<svg`, nor with any other signature of the claim's priority list — so the
claim's "no signature matches yields Unknown" fails at this input. -/
theorem detect_format_lstrip_counterexample :
    detect_format [32, 60, 115, 118, 103] = some Fmt.SVG
    ∧ ¬ sniffSVGLeading ([32, 60, 115, 118, 103].take 32)
    ∧ ¬ sniffJPEG ([32, 60, 115, 118, 103].take 32)
    ∧ ¬ sniffPNG ([32, 60, 115, 118, 103].take 32)
    ∧ ¬ sniffGIF ([32, 60, 115, 118, 103].take 32)
    ∧ ¬ sniffWEBP ([32, 60, 115, 118, 103].take 32)
    ∧ ¬ sniffBMP ([32, 60, 115, 118, 103].take 32)
    ∧ ¬ sniffTIFF ([32, 60, 115, 118, 103].take 32)
    ∧ ¬ sniffHEIC ([32, 60, 115, 118, 103].take 32) := by
  refine ⟨rfl, ?_, ?_, ?_, ?_, ?_, ?_, ?_, ?_⟩ <;>
    simp [sniffSVGLeading, sniffJPEG, sniffPNG, sniffGIF, sniffWEBP, sniffBMP,
      sniffTIFF, sniffHEIC]

/-- C3 (amended). `detect_format` classifies the 32-byte header by signature in
the fixed priority order JPEG, PNG, GIF, RIFF+WEBP, BMP, TIFF, ftyp-brand,
then — after stripping leading ASCII whitespace — `<?xml`/`<svg`; it returns
`Unknown` (`none`) exactly when no signature matches, and, being a total
function of the bytes, never fails. -/
theorem detect_format_priority (f : List Nat) :
    (detect_format f = some Fmt.JPEG ↔ sniffJPEG (f.take 32))
    ∧ (detect_format f = some Fmt.PNG ↔
        ¬ sniffJPEG (f.take 32) ∧ sniffPNG (f.take 32))
    ∧ (detect_format f = some Fmt.GIF ↔
        ¬ sniffJPEG (f.take 32) ∧ ¬ sniffPNG (f.take 32) ∧ sniffGIF (f.take 32))
    ∧ (detect_format f = some Fmt.WEBP ↔
        ¬ sniffJPEG (f.take 32) ∧ ¬ sniffPNG (f.take 32) ∧ ¬ sniffGIF (f.take 32)
        ∧ sniffWEBP (f.take 32))
    ∧ (detect_format f = some Fmt.BMP ↔
        ¬ sniffJPEG (f.take 32) ∧ ¬ sniffPNG (f.take 32) ∧ ¬ sniffGIF (f.take 32)
        ∧ ¬ sniffWEBP (f.take 32) ∧ sniffBMP (f.take 32))
    ∧ (detect_format f = some Fmt.TIFF ↔
        ¬ sniffJPEG (f.take 32) ∧ ¬ sniffPNG (f.take 32) ∧ ¬ sniffGIF (f.take 32)
        ∧ ¬ sniffWEBP (f.take 32) ∧ ¬ sniffBMP (f.take 32) ∧ sniffTIFF (f.take 32))
    ∧ (detect_format f = some Fmt.HEIC ↔
        ¬ sniffJPEG (f.take 32) ∧ ¬ sniffPNG (f.take 32) ∧ ¬ sniffGIF (f.take 32)
        ∧ ¬ sniffWEBP (f.take 32) ∧ ¬ sniffBMP (f.take 32) ∧ ¬ sniffTIFF (f.take 32)
        ∧ sniffHEIC (f.take 32))
    ∧ (detect_format f = some Fmt.SVG ↔
        ¬ sniffJPEG (f.take 32) ∧ ¬ sniffPNG (f.take 32) ∧ ¬ sniffGIF (f.take 32)
        ∧ ¬ sniffWEBP (f.take 32) ∧ ¬ sniffBMP (f.take 32) ∧ ¬ sniffTIFF (f.take 32)
        ∧ ¬ sniffHEIC (f.take 32) ∧ sniffSVGStrip (f.take 32))
    ∧ (detect_format f = none ↔
        ¬ sniffJPEG (f.take 32) ∧ ¬ sniffPNG (f.take 32) ∧ ¬ sniffGIF (f.take 32)
        ∧ ¬ sniffWEBP (f.take 32) ∧ ¬ sniffBMP (f.take 32) ∧ ¬ sniffTIFF (f.take 32)
        ∧ ¬ sniffHEIC (f.take 32) ∧ ¬ sniffSVGStrip (f.take 32)) := by
  simp only [detect_format, sniffJPEG, sniffPNG, sniffGIF, sniffWEBP, sniffBMP,
    sniffTIFF, sniffHEIC, sniffSVGStrip]
  split_ifs <;> simp_all

/-- C4. `validate_input` fails with `NotFoundError` iff the path does not
exist; with `TypeError` iff it exists but is not a regular file; with
`SizeLimitError` iff the earlier checks pass and the byte size strictly
exceeds the ceiling (so a file of exactly the ceiling is accepted); with
`UnsupportedFormatError` iff the sniffer returns `Unknown`; succeeds iff all
four checks pass.  The CLI ceiling is 50 MiB, the network ceiling 20 MiB, and
the network gate 413-rejects exactly above its ceiling. -/
theorem validate_input_check_order (f : FileStat) (m : Nat) (d : List Nat) :
    (validate_input f m = .error .NotFoundError ↔ f.ex = false)
    ∧ (validate_input f m = .error .TypeError ↔ f.ex = true ∧ f.isFile = false)
    ∧ (validate_input f m = .error .SizeLimitError ↔
        f.ex = true ∧ f.isFile = true ∧ m < f.size)
    ∧ (validate_input f m = .error .UnsupportedFormatError ↔
        f.ex = true ∧ f.isFile = true ∧ f.size ≤ m ∧ detect_format f.bytes = none)
    ∧ (validate_input f m = .ok () ↔
        f.ex = true ∧ f.isFile = true ∧ f.size ≤ m ∧ detect_format f.bytes ≠ none)
    ∧ MAX_FILE_SIZE = 50 * 1024 * 1024
    ∧ MAX_UPLOAD = 20 * 1024 * 1024
    ∧ (validate_upload d = .error 413 ↔ MAX_UPLOAD < d.length) := by
  refine ⟨?_, ?_, ?_, ?_, ?_, rfl, rfl, ?_⟩ <;>
    first
      | (unfold validate_input; split_ifs <;> simp_all)
      | (unfold validate_upload; split_ifs <;> simp_all)

/-- If a take-prefix of `f` is a nonempty explicit list, `f` begins with its
head. -/
theorem head_of_take_eq {f m : List Nat} {a k : Nat} (h : f.take k = a :: m) :
    f.head? = some a := by
  cases f with
  | nil => simp at h
  | cons b t =>
    cases k with
    | zero => simp at h
    | succ k =>
      rw [List.take_succ_cons] at h
      simp only [List.cons.injEq] at h
      simp [h.1]

/-- A file that the sniffer classifies as SVG begins with ASCII whitespace or
with the byte `<` (60). -/
theorem svg_head {f : List Nat} (h : detect_format f = some Fmt.SVG) :
    ∃ b, f.head? = some b ∧ (isPyWhitespace b = true ∨ b = 60) := by
  simp only [detect_format] at h
  split_ifs at h with h1 h2 h3 h4 h5 h6 h7 h8 <;> try simp at h
  cases f with
  | nil => simp at h8
  | cons b t =>
    by_cases hb : isPyWhitespace b
    · exact ⟨b, rfl, Or.inl hb⟩
    · refine ⟨b, rfl, Or.inr ?_⟩
      have ht : (b :: t).take 32 = b :: t.take 31 := rfl
      rw [ht, List.dropWhile_cons, if_neg hb] at h8
      rcases h8 with hs | hs <;>
        · have h60 := head_of_take_eq hs
          simpa using h60

/-- C10 (amended). The HTTP upload gate 413-rejects exactly when the payload
strictly exceeds 20 MiB (exactly 20 MiB passes the size check), 415-rejects
exactly when the size check passes but no allowed magic prefix (JPEG, PNG,
GIF8, RIFF, BM, II, MM) matches, and accepts otherwise; any RIFF-prefixed
payload of acceptable size is accepted even without a WEBP marker; an SVG (per
the CLI sniffer) is always rejected; a HEIC payload is rejected *unless* its
leading bytes happen to coincide with an allowed prefix. -/
theorem validate_upload_gate (data : List Nat) :
    (validate_upload data = .error 413 ↔ MAX_UPLOAD < data.length)
    ∧ (validate_upload data = .error 415 ↔
        data.length ≤ MAX_UPLOAD ∧ ∀ m ∈ allowedMagic, data.take m.length ≠ m)
    ∧ (validate_upload data = .ok () ↔
        data.length ≤ MAX_UPLOAD ∧ ∃ m ∈ allowedMagic, data.take m.length = m)
    ∧ (data.take 4 = [82, 73, 70, 70] → data.length ≤ MAX_UPLOAD →
        validate_upload data = .ok ())
    ∧ (detect_format data = some Fmt.SVG → validate_upload data ≠ .ok ()) := by
  refine ⟨?_, ?_, ?_, ?_, ?_⟩
  · unfold validate_upload; split_ifs <;> simp_all
  · unfold validate_upload; split_ifs <;>
      simp_all [List.any_eq_true, not_lt]
  · unfold validate_upload; split_ifs <;>
      simp_all [List.any_eq_true, not_lt]
  · intro hr hlen
    unfold validate_upload
    rw [if_neg (not_lt.mpr hlen)]
    simp [allowedMagic, hr]
  · intro hsvg hok
    obtain ⟨b, hb, hws⟩ := svg_head hsvg
    unfold validate_upload at hok
    split_ifs at hok with u1 u2 <;> try simp at hok
    simp only [List.any_eq_true, decide_eq_true_eq, allowedMagic] at u2
    simp only [List.mem_cons, List.not_mem_nil, or_false] at u2
    obtain ⟨m, hm, htake⟩ := u2
    rcases hm with rfl | rfl | rfl | rfl | rfl | rfl | rfl <;>
      · have hh := head_of_take_eq htake
        rw [hb] at hh
        simp only [Option.some.injEq] at hh
        subst hh
        rcases hws with hws | hws <;> simp_all [isPyWhitespace]

/-- C10 (counterexample). A 12-byte payload whose ftyp brand is `heic` —
which the CLI sniffer classifies as HEIC — is *accepted* by the upload gate,
because its leading box-size bytes spell `II`, one of the allowed prefixes;
so "HEIC uploads are always rejected at the network boundary" fails. -/
theorem validate_upload_heic_accepted :
    detect_format [73, 73, 0, 0, 102, 116, 121, 112, 104, 101, 105, 99]
      = some Fmt.HEIC
    ∧ validate_upload [73, 73, 0, 0, 102, 116, 121, 112, 104, 101, 105, 99]
      = .ok () :=
  ⟨rfl, rfl⟩

/-- Witness for `validate_upload_gate`: a bare RIFF header with no WEBP
marker is accepted by the gate. -/
theorem validate_upload_gate_witness :
    validate_upload [82, 73, 70, 70] = .ok () :=
  (validate_upload_gate [82, 73, 70, 70]).2.2.2.1 rfl (by decide)

/-- A filesystem path as `pathlib` sees it: parent directory components plus
the final component (the file name, modelled as its characters). -/
structure PyPath where
  dir : List String
  name : List Char
  deriving DecidableEq, Repr

/-- Rightmost index of a dot in a name (`str.rfind`), `none` when absent. -/
def rfindDotAux : List Char → Nat → Option Nat → Option Nat
  | [], _, acc => acc
  | c :: cs, i, acc => rfindDotAux cs (i + 1) (if c = '.' then some i else acc)

/-- `name.rfind of a dot`, over the whole name. -/
def rfindDot (cs : List Char) : Option Nat := rfindDotAux cs 0 none

/-- `pathlib.PurePath.suffix`: the part from the rightmost dot, provided that
dot is neither the first nor the last character; otherwise empty. -/
def pySuffix (cs : List Char) : List Char :=
  match rfindDot cs with
  | some i => if 0 < i ∧ i + 1 < cs.length then cs.drop i else []
  | none => []

/-- `pathlib.PurePath.stem`: the name up to the rightmost dot under the same
proviso; otherwise the whole name. -/
def pyStem (cs : List Char) : List Char :=
  match rfindDot cs with
  | some i => if 0 < i ∧ i + 1 < cs.length then cs.take i else cs
  | none => cs

/-- `default_output` from `src/gimg/utils.py`: `{stem}_{suffix}{extension}`
beside the input, where the extension is the forced one when truthy (dotted
if needed) and otherwise the input's own suffix. -/
def default_output (input : PyPath) (sfx : List Char) (ext : Option (List Char)) :
    PyPath :=
  let stem := pyStem input.name
  let e := match ext with
    | some e => if e = [] then pySuffix input.name else e
    | none => pySuffix input.name
  let extension := if e.head? = some '.' then e else '.' :: e
  ⟨input.dir, stem ++ ['_'] ++ sfx ++ extension⟩

/-- The only error output-path resolution can raise (the source raises
`ValueError`; the spec calls it `OverwriteError`). -/
inductive OutErr
  | OverwriteError
  deriving DecidableEq, Repr

/-- `resolve_output` from `src/gimg/utils.py`.  The filesystem's judgement of
whether the explicit output names an existing directory is passed in as
`isDir`; a `none` output argument models an absent (or empty, hence falsy)
`output_arg`. -/
def resolve_output (input : PyPath) (outputArg : Option PyPath)
    (isDir : PyPath → Bool) (tool_sfx : List Char) (ext : Option (List Char))
    (overwrite : Bool) : Except OutErr PyPath :=
  match outputArg with
  | some out =>
      if isDir out then
        .ok ⟨out.dir ++ [out.name.asString], (default_output input tool_sfx ext).name⟩
      else .ok out
  | none =>
      let out := default_output input tool_sfx ext
      if out = input ∧ ¬ overwrite then .error .OverwriteError
      else .ok out

/-- C2. Output resolution behaves exactly as claimed: an explicit output that
names an existing directory yields that directory joined with
`{stem}_{suffix}.{ext}`; an explicit output file path is returned verbatim;
an absent output synthesizes `{stem}_{suffix}.{ext}` beside the input and
fails with `OverwriteError` exactly when that default equals the input path
and overwrite was not granted.  The final conjuncts pin the synthesized name
shape and the spec's `photo.jpg`/`photo_resized.jpg` instances. -/
theorem resolve_output_contract (input o : PyPath) (isDir : PyPath → Bool)
    (sfx : List Char) (ext : Option (List Char)) (ow : Bool) :
    (isDir o = true → resolve_output input (some o) isDir sfx ext ow
      = .ok ⟨o.dir ++ [o.name.asString], (default_output input sfx ext).name⟩)
    ∧ (isDir o = false → resolve_output input (some o) isDir sfx ext ow = .ok o)
    ∧ (resolve_output input none isDir sfx ext ow
      = if default_output input sfx ext = input ∧ ow = false
        then .error .OverwriteError else .ok (default_output input sfx ext))
    ∧ (default_output input sfx ext).dir = input.dir
    ∧ (default_output input sfx ext).name
      = pyStem input.name ++ ['_'] ++ sfx
        ++ (let e := match ext with
              | some e => if e = [] then pySuffix input.name else e
              | none => pySuffix input.name
            if e.head? = some '.' then e else '.' :: e)
    ∧ resolve_output ⟨["pics"], "photo.jpg".toList⟩ none isDir
        "resized".toList none false
      = .ok ⟨["pics"], "photo_resized.jpg".toList⟩
    ∧ resolve_output ⟨["pics"], "photo.jpg".toList⟩
        (some ⟨["out"], "sub".toList⟩) (fun _ => true) "resized".toList none false
      = .ok ⟨["out", "sub"], "photo_resized.jpg".toList⟩
    ∧ resolve_output ⟨["pics"], "photo.jpg".toList⟩
        (some ⟨["out"], "target.png".toList⟩) (fun _ => false)
        "resized".toList none false
      = .ok ⟨["out"], "target.png".toList⟩ := by
  refine ⟨?_, ?_, ?_, rfl, rfl, rfl, rfl, rfl⟩
  · intro h; simp [resolve_output, h]
  · intro h; simp [resolve_output, h]
  · simp only [resolve_output]
    rcases ow with _ | _ <;> split_ifs <;> simp_all

/-- Witness for `resolve_output_contract`: the directory branch at the
spec's concrete instance. -/
theorem resolve_output_contract_witness :
    resolve_output ⟨["pics"], "photo.jpg".toList⟩ (some ⟨["out"], "sub".toList⟩)
      (fun _ => true) "resized".toList none false
    = .ok ⟨["out", "sub"], "photo_resized.jpg".toList⟩ :=
  (resolve_output_contract ⟨["pics"], "photo.jpg".toList⟩ ⟨["out"], "sub".toList⟩
    (fun _ => true) "resized".toList none false).1 rfl

/-- C8 (counterexample). Passing the input path itself as the explicit output
argument (not a directory) returns it verbatim with no overwrite permission
granted — the resolved output equals the input, refuting the invariant. -/
theorem resolve_output_explicit_equals_input :
    resolve_output ⟨["pics"], "photo.jpg".toList⟩
      (some ⟨["pics"], "photo.jpg".toList⟩) (fun _ => false)
      "resized".toList none false
    = .ok ⟨["pics"], "photo.jpg".toList⟩ := rfl

/-- C8 (amended). The overwrite guard protects exactly the synthesized
default: when no explicit output argument is supplied and overwrite was not
granted, the resolved output path never equals the input path. -/
theorem resolve_output_default_never_input (input : PyPath)
    (isDir : PyPath → Bool) (sfx : List Char) (ext : Option (List Char))
    (out : PyPath)
    (h : resolve_output input none isDir sfx ext false = .ok out) :
    out ≠ input := by
  simp only [resolve_output] at h
  by_cases hc : default_output input sfx ext = input
  · simp [hc] at h
  · simp [hc] at h
    subst h
    exact hc

/-- Witness for `resolve_output_default_never_input` at the spec's concrete
instance. -/
theorem resolve_output_default_never_input_witness :
    (⟨["pics"], "photo_resized.jpg".toList⟩ : PyPath)
      ≠ ⟨["pics"], "photo.jpg".toList⟩ :=
  resolve_output_default_never_input ⟨["pics"], "photo.jpg".toList⟩
    (fun _ => false) "resized".toList none
    ⟨["pics"], "photo_resized.jpg".toList⟩ rfl

/-- Per-item failure in a batch run: a validation error, an output-resolution
error, or an exception from the processing function (caught as its message). -/
inductive BatchErr
  | vErr (e : VErr)
  | oErr (e : OutErr)
  | pErr (s : String)
  deriving DecidableEq, Repr

/-- One iteration of the `run_batch` loop body from `src/gimg/utils.py`:
validate, resolve the output, then run the processing function; the first
raise aborts this item only. -/
def batch_step (pf : PyPath → PyPath → Except String Unit)
    (outputArg : Option PyPath) (isDir : PyPath → Bool) (tool_sfx : List Char)
    (ext : Option (List Char)) (ow : Bool) (it : FileStat × PyPath) :
    Except BatchErr PyPath :=
  match validate_input it.1 with
  | .error e => .error (.vErr e)
  | .ok _ =>
    match resolve_output it.2 outputArg isDir tool_sfx ext ow with
    | .error e => .error (.oErr e)
    | .ok out =>
      match pf it.2 out with
      | .error s => .error (.pErr s)
      | .ok _ => .ok out

/-- Whether an item fails its batch step. -/
def batch_step_fails (pf : PyPath → PyPath → Except String Unit)
    (outputArg : Option PyPath) (isDir : PyPath → Bool) (tool_sfx : List Char)
    (ext : Option (List Char)) (ow : Bool) (it : FileStat × PyPath) : Bool :=
  match batch_step pf outputArg isDir tool_sfx ext ow it with
  | .error _ => true
  | .ok _ => false

/-- Aggregate of a batch run: the success counter, the recorded per-item
errors in input order, and the return code. -/
structure BatchResult where
  success : Nat
  errors : List (PyPath × BatchErr)
  returncode : Nat
  deriving DecidableEq, Repr

/-- The `run_batch` loop from `src/gimg/utils.py`, item by item: a failing
item is recorded and the remaining items are still processed. -/
def run_batch_go (pf : PyPath → PyPath → Except String Unit)
    (outputArg : Option PyPath) (isDir : PyPath → Bool) (tool_sfx : List Char)
    (ext : Option (List Char)) (ow : Bool) :
    List (FileStat × PyPath) → Nat × List (PyPath × BatchErr)
  | [] => (0, [])
  | it :: rest =>
    let r := run_batch_go pf outputArg isDir tool_sfx ext ow rest
    match batch_step pf outputArg isDir tool_sfx ext ow it with
    | .ok _ => (r.1 + 1, r.2)
    | .error e => (r.1, (it.2, e) :: r.2)

/-- `run_batch` from `src/gimg/utils.py`: runs every item, then returns 2
when any item failed and 0 otherwise (progress printing is omitted; the
pre-loop output-directory creation is a filesystem side effect outside this
model). -/
def run_batch (items : List (FileStat × PyPath))
    (pf : PyPath → PyPath → Except String Unit) (outputArg : Option PyPath)
    (isDir : PyPath → Bool) (tool_sfx : List Char) (ext : Option (List Char))
    (ow : Bool) : BatchResult :=
  let r := run_batch_go pf outputArg isDir tool_sfx ext ow items
  ⟨r.1, r.2, if r.2 = [] then 0 else 2⟩

/-- The loop's accumulators: successes plus failures partition the items, and
the recorded errors are exactly the failing items in input order. -/
theorem run_batch_go_spec (pf : PyPath → PyPath → Except String Unit)
    (outputArg : Option PyPath) (isDir : PyPath → Bool) (tool_sfx : List Char)
    (ext : Option (List Char)) (ow : Bool) (items : List (FileStat × PyPath)) :
    (run_batch_go pf outputArg isDir tool_sfx ext ow items).1
      + items.countP (batch_step_fails pf outputArg isDir tool_sfx ext ow)
      = items.length
    ∧ (run_batch_go pf outputArg isDir tool_sfx ext ow items).2
      = items.filterMap (fun it =>
          match batch_step pf outputArg isDir tool_sfx ext ow it with
          | .error e => some (it.2, e)
          | .ok _ => none) := by
  induction items with
  | nil => simp [run_batch_go]
  | cons it rest ih =>
    obtain ⟨ih1, ih2⟩ := ih
    unfold run_batch_go
    rcases hs : batch_step pf outputArg isDir tool_sfx ext ow it with e | out <;>
      constructor <;>
      simp only [List.countP_cons, List.filterMap_cons, batch_step_fails, hs,
        List.length_cons] <;>
      simp_all <;> omega

/-- C6. A batch over N items with one processor and parameter set handles
each item independently (validate, resolve output, process); a failing item
is recorded — in input order, with its error — and the rest still run; with
M failing items the aggregate reports exactly N−M successes and M failures,
and the return code is 0 when every item succeeds and 2 as soon as at least
one fails. -/
theorem run_batch_aggregate (items : List (FileStat × PyPath))
    (pf : PyPath → PyPath → Except String Unit) (outputArg : Option PyPath)
    (isDir : PyPath → Bool) (tool_sfx : List Char) (ext : Option (List Char))
    (ow : Bool) :
    (run_batch items pf outputArg isDir tool_sfx ext ow).success
        + items.countP (batch_step_fails pf outputArg isDir tool_sfx ext ow)
      = items.length
    ∧ (run_batch items pf outputArg isDir tool_sfx ext ow).success
      = items.length
        - items.countP (batch_step_fails pf outputArg isDir tool_sfx ext ow)
    ∧ (run_batch items pf outputArg isDir tool_sfx ext ow).errors.length
      = items.countP (batch_step_fails pf outputArg isDir tool_sfx ext ow)
    ∧ ((run_batch items pf outputArg isDir tool_sfx ext ow).returncode = 0
      ↔ items.countP (batch_step_fails pf outputArg isDir tool_sfx ext ow) = 0)
    ∧ ((run_batch items pf outputArg isDir tool_sfx ext ow).returncode = 2
      ↔ 0 < items.countP (batch_step_fails pf outputArg isDir tool_sfx ext ow))
    ∧ (run_batch items pf outputArg isDir tool_sfx ext ow).errors
      = items.filterMap (fun it =>
          match batch_step pf outputArg isDir tool_sfx ext ow it with
          | .error e => some (it.2, e)
          | .ok _ => none) := by
  obtain ⟨h1, h2⟩ := run_batch_go_spec pf outputArg isDir tool_sfx ext ow items
  set g := run_batch_go pf outputArg isDir tool_sfx ext ow items with hg
  set M := items.countP (batch_step_fails pf outputArg isDir tool_sfx ext ow)
    with hM
  have hlen : g.2.length = M := by
    rw [h2, hM]
    clear h1 h2 hg
    induction items with
    | nil => simp
    | cons it rest ih =>
      simp only [List.filterMap_cons, List.countP_cons]
      cases hs : batch_step pf outputArg isDir tool_sfx ext ow it with
      | error e => simp [hs, ih, batch_step_fails]
      | ok out => simp [hs, ih, batch_step_fails]
  have hs1 : (run_batch items pf outputArg isDir tool_sfx ext ow).success
      = g.1 := rfl
  have her : (run_batch items pf outputArg isDir tool_sfx ext ow).errors
      = g.2 := rfl
  have hrc : (run_batch items pf outputArg isDir tool_sfx ext ow).returncode
      = if g.2 = [] then 0 else 2 := rfl
  refine ⟨?_, ?_, ?_, ?_, ?_, ?_⟩
  · rw [hs1]; exact h1
  · rw [hs1]; omega
  · rw [her]; exact hlen
  · rw [hrc]
    by_cases he : g.2 = []
    · have h0 : M = 0 := by rw [← hlen, he]; rfl
      simp [he, h0]
    · have h0 : M ≠ 0 := by
        rw [← hlen]
        simpa [List.length_eq_zero] using he
      simp [he, h0]
  · rw [hrc]
    by_cases he : g.2 = []
    · have h0 : M = 0 := by rw [← hlen, he]; rfl
      simp [he, h0]
    · have h0 : 0 < M := by
        rw [← hlen]
        exact List.length_pos.mpr he
      simp [he, h0]
  · rw [her]; exact h2

/-- Fueled floor-log2; with fuel at least the bit length it computes
the exact floor of the base-2 logarithm. -/
def log2fuel : Nat → Nat → Nat
  | 0, _ => 0
  | f + 1, n => if 2 ≤ n then log2fuel f (n / 2) + 1 else 0

/-- Round `p / q` to the nearest integer, ties to even (IEEE-754 default). -/
def roundHalfEven (p q : Nat) : Nat :=
  let d := p / q
  let r := p % q
  if 2 * r < q then d
  else if q < 2 * r then d + 1
  else if d % 2 = 0 then d else d + 1

/-- A nonnegative binary64 value: `mant * 2 ^ exp` as a dyadic rational.
Every value Python's float arithmetic produces in the resize paths is of
this shape. -/
structure Fl where
  mant : Nat
  exp : Int
  deriving DecidableEq, Repr

/-- Correctly round the true quotient `a / b` to 53 significant bits,
ties to even — exactly what CPython's int/int true division and int→float
conversion produce. -/
def rnd53 (a b : Nat) : Fl :=
  if a = 0 then ⟨0, 0⟩ else
  let s := log2fuel b b + 1
  let N := a * 2 ^ s / b
  let e : Int := (log2fuel N N : Int) - s
  let t : Int := e - 52
  let mant := if 0 ≤ t then roundHalfEven a (b * 2 ^ t.toNat)
              else roundHalfEven (a * 2 ^ (-t).toNat) b
  ⟨mant, t⟩

/-- `float(n)` for a Python int. -/
def flOfNat (n : Nat) : Fl := rnd53 n 1

/-- IEEE binary64 multiplication: exact product, one rounding. -/
def flMul (x y : Fl) : Fl :=
  let r := rnd53 (x.mant * y.mant) 1
  ⟨r.mant, r.exp + x.exp + y.exp⟩

/-- IEEE binary64 division: correctly rounded true quotient. -/
def flDiv (x y : Fl) : Fl :=
  let r := rnd53 x.mant y.mant
  ⟨r.mant, r.exp + x.exp - y.exp⟩

/-- Exact value comparison of two binary64 values. -/
def Fl.le (x y : Fl) : Bool :=
  if x.exp ≤ y.exp then x.mant ≤ y.mant * 2 ^ (y.exp - x.exp).toNat
  else x.mant * 2 ^ (x.exp - y.exp).toNat ≤ y.mant

/-- Python's `min` on two floats (first argument on ties). -/
def Fl.minF (x y : Fl) : Fl := if Fl.le x y then x else y

/-- Python's `int()` on a nonnegative float: truncation. -/
def Fl.floorNat (x : Fl) : Nat :=
  if 0 ≤ x.exp then x.mant * 2 ^ x.exp.toNat
  else x.mant / 2 ^ (-x.exp).toNat

/-- Python truthiness of an optional numeric argument: present and nonzero. -/
def optTruthy : Option Nat → Bool
  | none => false
  | some n => n ≠ 0

/-- The missing-parameter failure of resize (`ValueError` in the source,
`ValidationError` in the spec's taxonomy). -/
inductive ResizeErr
  | ValidationError
  deriving DecidableEq, Repr

/-- The dimension computation of `process_single` in `src/gimg/resize.py`,
with Python's binary64 arithmetic modelled exactly: percentage first, then
max-size (unchanged when the ratio reaches 1), then width/height with
truthiness tests, else a validation error. -/
def resize_dims (orig_w orig_h : Nat) (width height : Option Nat)
    (percentage : Option Fl) (max_size : Option Nat) :
    Except ResizeErr (Nat × Nat) :=
  match percentage with
  | some p =>
    .ok ((flDiv (flMul (flOfNat orig_w) p) (flOfNat 100)).floorNat,
         (flDiv (flMul (flOfNat orig_h) p) (flOfNat 100)).floorNat)
  | none =>
    match max_size with
    | some m =>
      let r := Fl.minF (rnd53 m orig_w) (rnd53 m orig_h)
      if Fl.le (flOfNat 1) r then .ok (orig_w, orig_h)
      else .ok ((flMul (flOfNat orig_w) r).floorNat,
                (flMul (flOfNat orig_h) r).floorNat)
    | none =>
      if optTruthy width ∧ optTruthy height then
        .ok (width.getD 0, height.getD 0)
      else if optTruthy width then
        .ok (width.getD 0,
             (flMul (flOfNat orig_h) (rnd53 (width.getD 0) orig_w)).floorNat)
      else if optTruthy height then
        .ok ((flMul (flOfNat orig_w) (rnd53 (height.getD 0) orig_h)).floorNat,
             height.getD 0)
      else .error .ValidationError

/-- The same max-size computation under exact rational arithmetic — what the
claim's "larger side equals exactly max_size" presumes. -/
def resize_dims_rat (w h m : Nat) : Nat × Nat :=
  let r : ℚ := min ((m : ℚ) / w) ((m : ℚ) / h)
  if 1 ≤ r then (w, h)
  else ((⌊(w : ℚ) * r⌋).toNat, (⌊(h : ℚ) * r⌋).toNat)

/-- With enough fuel, `log2fuel` bounds its input above. -/
theorem log2fuel_lt (f : Nat) : ∀ n, n < 2 ^ f → n < 2 ^ (log2fuel f n + 1) := by
  induction f with
  | zero => intro n h; simp [log2fuel]; omega
  | succ f ih =>
    intro n h
    unfold log2fuel
    split_ifs with h2
    · have hdiv : n / 2 < 2 ^ f := by
        rw [Nat.div_lt_iff_lt_mul (by omega : 0 < 2)]
        rw [pow_succ] at h
        omega
      have := ih (n / 2) hdiv
      have : n / 2 + 1 ≤ 2 ^ (log2fuel f (n / 2) + 1) := this
      calc n < 2 * (n / 2) + 2 := by omega
        _ ≤ 2 * 2 ^ (log2fuel f (n / 2) + 1) := by omega
        _ = 2 ^ (log2fuel f (n / 2) + 1 + 1) := by ring
    · omega

/-- With enough fuel, `log2fuel` bounds its positive input below. -/
theorem log2fuel_le (f : Nat) : ∀ n, 1 ≤ n → 2 ^ log2fuel f n ≤ n := by
  induction f with
  | zero => intro n h1; simpa [log2fuel] using h1
  | succ f ih =>
    intro n h1
    unfold log2fuel
    split_ifs with h2
    · have := ih (n / 2) (by omega)
      calc 2 ^ (log2fuel f (n / 2) + 1) = 2 * 2 ^ log2fuel f (n / 2) := by ring
        _ ≤ 2 * (n / 2) := by omega
        _ ≤ n := by omega
    · simpa using h1

/-- Nearest-integer rounding never falls below the floor. -/
theorem roundHalfEven_ge (p q : Nat) : p / q ≤ roundHalfEven p q := by
  simp only [roundHalfEven]
  split_ifs <;> omega

/-- The correctly rounded quotient of `a / b` with `1 ≤ b ≤ a` has a full
53-bit mantissa and an exponent no smaller than −52 — i.e. its value is at
least 1. -/
theorem rnd53_spec (a b : Nat) (hb : 1 ≤ b) (hba : b ≤ a) :
    2 ^ 52 ≤ (rnd53 a b).mant ∧ -52 ≤ (rnd53 a b).exp := by
  have ha0 : ¬ a = 0 := by omega
  simp only [rnd53, if_neg ha0]
  set s := log2fuel b b + 1 with hs
  set N := a * 2 ^ s / b with hN
  set L := log2fuel N N with hL
  -- N is at least 2 ^ s
  have hsN : 2 ^ s ≤ N := by
    rw [hN]
    have h1 : b * 2 ^ s ≤ a * 2 ^ s := Nat.mul_le_mul_right _ hba
    have h2 : (b * 2 ^ s) / b = 2 ^ s := Nat.mul_div_cancel_left _ (by omega)
    calc 2 ^ s = (b * 2 ^ s) / b := h2.symm
      _ ≤ (a * 2 ^ s) / b := Nat.div_le_div_right h1
  have hN1 : 1 ≤ N := le_trans (Nat.one_le_two_pow) hsN
  have hupper : N < 2 ^ (L + 1) := log2fuel_lt N N (Nat.lt_two_pow N)
  have hlower : 2 ^ L ≤ N := log2fuel_le N N hN1
  -- hence s ≤ L
  have hsL : s ≤ L := by
    have : 2 ^ s < 2 ^ (L + 1) := lt_of_le_of_lt hsN hupper
    have := (Nat.pow_lt_pow_iff_right (by omega : 1 < 2)).mp this
    omega
  -- b * 2 ^ (L - s) ≤ a
  have hbe : b * 2 ^ (L - s) ≤ a := by
    have h1 : N * b ≤ a * 2 ^ s := Nat.div_mul_le_self _ _
    have h2 : 2 ^ L * b ≤ a * 2 ^ s := le_trans (Nat.mul_le_mul_right _ hlower) h1
    have h3 : (b * 2 ^ (L - s)) * 2 ^ s = 2 ^ L * b := by
      rw [mul_assoc, ← pow_add]
      have : L - s + s = L := by omega
      rw [this, mul_comm]
    have h4 : (b * 2 ^ (L - s)) * 2 ^ s ≤ a * 2 ^ s := by rw [h3]; exact h2
    exact Nat.le_of_mul_le_mul_right h4 (Nat.pos_pow_of_pos s (by omega))
  constructor
  · -- mantissa bound
    split_ifs with ht
    · -- t ≥ 0, i.e. 52 + s ≤ L
      have htn : ((L : Int) - s - 52).toNat = L - s - 52 := by omega
      rw [htn]
      have hq : 0 < b * 2 ^ (L - s - 52) :=
        Nat.mul_pos (by omega) (Nat.pos_pow_of_pos _ (by omega))
      refine le_trans ?_ (roundHalfEven_ge a (b * 2 ^ (L - s - 52)))
      rw [Nat.le_div_iff_mul_le hq]
      have h52 : 52 + s ≤ L := by omega
      calc 2 ^ 52 * (b * 2 ^ (L - s - 52)) = b * 2 ^ (L - s) := by
            rw [mul_comm (2 ^ 52), mul_assoc, ← pow_add]
            congr 2
            omega
        _ ≤ a := hbe
    · -- t < 0, i.e. L < 52 + s
      have htn : (-((L : Int) - s - 52)).toNat = 52 + s - L := by omega
      rw [htn]
      refine le_trans ?_ (roundHalfEven_ge (a * 2 ^ (52 + s - L)) b)
      rw [Nat.le_div_iff_mul_le (by omega : 0 < b)]
      calc 2 ^ 52 * b = b * 2 ^ (L - s) * 2 ^ (52 + s - L) := by
            rw [mul_assoc, ← pow_add]
            have : L - s + (52 + s - L) = 52 := by omega
            rw [this, mul_comm]
        _ ≤ a * 2 ^ (52 + s - L) := Nat.mul_le_mul_right _ hbe
  · -- exponent bound
    show (-52 : Int) ≤ (L : Int) - (s : Int) - 52
    omega

/-- `float(1)` is the dyadic `2^52 * 2^-52`. -/
theorem flOfNat_one : flOfNat 1 = ⟨2 ^ 52, -52⟩ := rfl

theorem le_one_rnd53 (a b : Nat) (hb : 1 ≤ b) (hba : b ≤ a) :
    Fl.le (flOfNat 1) (rnd53 a b) = true := by
  obtain ⟨hm, he⟩ := rnd53_spec a b hb hba
  rw [flOfNat_one]
  simp only [Fl.le]
  rw [if_pos he, decide_eq_true_eq]
  calc 2 ^ 52 ≤ (rnd53 a b).mant := hm
    _ ≤ (rnd53 a b).mant * 2 ^ ((rnd53 a b).exp - (-52)).toNat :=
        Nat.le_mul_of_pos_right _ (Nat.pos_pow_of_pos _ (by omega))

theorem resize_unchanged (w h m : Nat) (hw : 1 ≤ w) (hh : 1 ≤ h)
    (hwm : w ≤ m) (hhm : h ≤ m) :
    resize_dims w h none none none (some m) = .ok (w, h) := by
  simp only [resize_dims]
  have hle : Fl.le (flOfNat 1) (Fl.minF (rnd53 m w) (rnd53 m h)) = true := by
    simp only [Fl.minF]
    split_ifs
    · exact le_one_rnd53 m w hw hwm
    · exact le_one_rnd53 m h hh hhm
  rw [if_pos hle]

theorem resize_rat_exact (w h m : Nat) (hh : 0 < h) (hhw : h ≤ w) (hmw : m < w) :
    (resize_dims_rat w h m).1 = m
    ∧ (resize_dims_rat w h m).2 = (⌊(h : ℚ) * m / w⌋).toNat := by
  have hw : 0 < w := lt_of_lt_of_le hh hhw
  have hwq : (0 : ℚ) < w := by exact_mod_cast hw
  have hhq : (0 : ℚ) < h := by exact_mod_cast hh
  have hmin : min ((m : ℚ) / w) ((m : ℚ) / h) = (m : ℚ) / w := by
    apply min_eq_left
    rw [div_le_div_iff₀ hwq hhq]
    exact mul_le_mul_of_nonneg_left (by exact_mod_cast hhw) (by positivity)
  have hlt : ¬ (1 ≤ min ((m : ℚ) / w) ((m : ℚ) / h)) := by
    rw [hmin, not_le, div_lt_one hwq]
    exact_mod_cast hmw
  simp only [resize_dims_rat]
  rw [if_neg hlt, hmin]
  constructor
  · have hwm : (w : ℚ) * ((m : ℚ) / w) = m := by field_simp
    rw [hwm]
    simp
  · have hhm : (h : ℚ) * ((m : ℚ) / w) = (h : ℚ) * m / w := by ring
    rw [hhm]

/-- C7 (amended). Resizing a 1000×500 image by percentage 50 yields exactly
500×250, and by max_size 100 yields exactly 100×50; a max_size at least as
large as both dimensions leaves them unchanged; under exact rational
arithmetic the max-size path makes the larger side exactly max_size and the
other side the rounded-down proportional value — but the implementation uses
binary64 floats, where the larger side can come out one pixel short, as at
49×20 with max_size 16 (result 15×6). -/
theorem resize_dims_spec :
    resize_dims 1000 500 none none (some (flOfNat 50)) none = .ok (500, 250)
    ∧ resize_dims 1000 500 none none none (some 100) = .ok (100, 50)
    ∧ (∀ w h m : Nat, 1 ≤ w → 1 ≤ h → w ≤ m → h ≤ m →
        resize_dims w h none none none (some m) = .ok (w, h))
    ∧ (∀ w h m : Nat, 0 < h → h ≤ w → m < w →
        (resize_dims_rat w h m).1 = m
        ∧ (resize_dims_rat w h m).2 = (⌊(h : ℚ) * m / w⌋).toNat)
    ∧ resize_dims 49 20 none none none (some 16) = .ok (15, 6) :=
  ⟨rfl, rfl, resize_unchanged, resize_rat_exact, rfl⟩

/-- Witness for `resize_dims_spec`: the unchanged branch at 3×2 with
max_size 5, and the exact-arithmetic larger side at 1000×500 with
max_size 100. -/
theorem resize_dims_spec_witness :
    resize_dims 3 2 none none none (some 5) = .ok (3, 2)
    ∧ (resize_dims_rat 1000 500 100).1 = 100 :=
  ⟨resize_dims_spec.2.2.1 3 2 5 (by norm_num) (by norm_num) (by norm_num)
      (by norm_num),
   (resize_dims_spec.2.2.2.1 1000 500 100 (by norm_num) (by norm_num)
      (by norm_num)).1⟩

/-- C7 (counterexample). Resizing a 49×20 image with max_size 16 yields 15×6
under the source's float arithmetic — the larger side is 15, not exactly 16
as the claim states — while exact rational arithmetic would give 16. -/
theorem resize_max_size_not_exact :
    resize_dims 49 20 none none none (some 16) = .ok (15, 6)
    ∧ (resize_dims_rat 49 20 16).1 = 16
    ∧ (15 : Nat) ≠ 16 :=
  ⟨rfl,
   (resize_rat_exact 49 20 16 (by norm_num) (by norm_num) (by norm_num)).1,
   by norm_num⟩

/-- An in-memory decoded image: dimensions plus a pixel function (color type
`C`); coordinates outside the bounds are irrelevant to every statement made. -/
structure Img (C : Type) where
  w : Nat
  h : Nat
  px : Nat → Nat → C

/-- The imaging library as the editor sees it: opaque pixel transforms.  The
only contract the repository relies on is that `resize((a, b))` returns an
image of exactly the requested dimensions. -/
structure PixelLib (C : Type) where
  autoEnhance : Img C → Img C
  enhanceBrightness : ℚ → Img C → Img C
  enhanceContrast : ℚ → Img C → Img C
  enhanceSaturation : ℚ → Img C → Img C
  enhanceSharpness : ℚ → Img C → Img C
  hueShift : ℚ → Img C → Img C
  filt : String → Img C → Img C
  frameRender : String → Img C → Img C
  resample : Img C → Nat → Nat → Img C
  resample_w : ∀ i a b, (resample i a b).w = a
  resample_h : ∀ i a b, (resample i a b).h = b

/-- The payload of a `ParameterRangeError`: the parameter's name, its two
bounds, and the offending value — exactly what `_clamp`'s message carries. -/
structure ClampErr where
  name : String
  lo : ℚ
  hi : ℚ
  val : ℚ
  deriving DecidableEq, Repr

/-- The editor's error taxonomy: a range error from `_clamp`, or an unknown
filter/flip/frame selector. -/
inductive EditErr
  | range (e : ClampErr)
  | badFilter (name : String)
  | badFlip (dir : String)
  | badFrame (name : String)
  deriving DecidableEq, Repr

/-- `_clamp` from `src/gimg/editor.py`: reject a value outside `[lo, hi]`
with an error naming the parameter, the bounds and the value. -/
def _clamp (val lo hi : ℚ) (name : String) : Except ClampErr ℚ :=
  if val < lo ∨ hi < val then .error ⟨name, lo, hi, val⟩ else .ok val

/-- `VALID_FILTERS` from `src/gimg/editor.py`. -/
def VALID_FILTERS : List String :=
  ["grayscale", "sepia", "blur", "emboss", "contour", "sharpen", "smooth",
   "invert", "posterize", "solarize", "vintage", "dramatic", "warm", "cool"]

/-- The frame names of `FRAME_MAP` in `src/gimg/editor.py`. -/
def FRAME_NAMES : List String := ["polaroid", "rounded", "shadow"]

/-- `apply_brightness`: range check, then one library call. -/
def apply_brightness {C : Type} (lib : PixelLib C) (img : Img C) (f : ℚ) :
    Except EditErr (Img C) :=
  match _clamp f 0 10 "brightness" with
  | .error e => .error (.range e)
  | .ok f => .ok (lib.enhanceBrightness f img)

/-- `apply_contrast`: range check, then one library call. -/
def apply_contrast {C : Type} (lib : PixelLib C) (img : Img C) (f : ℚ) :
    Except EditErr (Img C) :=
  match _clamp f 0 10 "contrast" with
  | .error e => .error (.range e)
  | .ok f => .ok (lib.enhanceContrast f img)

/-- `apply_saturation`: range check, then one library call. -/
def apply_saturation {C : Type} (lib : PixelLib C) (img : Img C) (f : ℚ) :
    Except EditErr (Img C) :=
  match _clamp f 0 10 "saturation" with
  | .error e => .error (.range e)
  | .ok f => .ok (lib.enhanceSaturation f img)

/-- `apply_sharpness`: range check, then one library call. -/
def apply_sharpness {C : Type} (lib : PixelLib C) (img : Img C) (f : ℚ) :
    Except EditErr (Img C) :=
  match _clamp f 0 10 "sharpness" with
  | .error e => .error (.range e)
  | .ok f => .ok (lib.enhanceSharpness f img)

/-- `apply_hue`: range check (−180..180), then the per-pixel hue shift
(delegated to the library model). -/
def apply_hue {C : Type} (lib : PixelLib C) (img : Img C) (d : ℚ) :
    Except EditErr (Img C) :=
  match _clamp d (-180) 180 "hue" with
  | .error e => .error (.range e)
  | .ok d => .ok (lib.hueShift d img)

/-- `apply_filter`: name validation against `VALID_FILTERS`, then dispatch. -/
def apply_filter {C : Type} (lib : PixelLib C) (img : Img C) (name : String) :
    Except EditErr (Img C) :=
  if name ∈ VALID_FILTERS then .ok (lib.filt name img)
  else .error (.badFilter name)

/-- `apply_flip`: `ImageOps.mirror` / `ImageOps.flip` with exact pixel
semantics; any other direction is an error. -/
def apply_flip {C : Type} (img : Img C) (direction : String) :
    Except EditErr (Img C) :=
  if direction = "horizontal" then
    .ok ⟨img.w, img.h, fun x y => img.px (img.w - 1 - x) y⟩
  else if direction = "vertical" then
    .ok ⟨img.w, img.h, fun x y => img.px x (img.h - 1 - y)⟩
  else .error (.badFlip direction)

/-- `ImageOps.expand(img, border=b, fill=c)`: the bordered image — `b` extra
pixels of `c` on every side. -/
def border_expand {C : Type} (img : Img C) (b : Nat) (c : C) : Img C :=
  ⟨img.w + 2 * b, img.h + 2 * b,
   fun x y =>
     if x < b ∨ y < b ∨ img.w + b ≤ x ∨ img.h + b ≤ y then c
     else img.px (x - b) (y - b)⟩

/-- `apply_border`: range check, then the solid border. -/
def apply_border {C : Type} (img : Img C) (b : Nat) (c : C) :
    Except EditErr (Img C) :=
  match _clamp (b : ℚ) 1 500 "border" with
  | .error e => .error (.range e)
  | .ok _ => .ok (border_expand img b c)

/-- `apply_frame`: name validation against `FRAME_MAP`, then dispatch (the
frames' canvas geometry is the library model's business). -/
def apply_frame {C : Type} (lib : PixelLib C) (img : Img C) (name : String) :
    Except EditErr (Img C) :=
  if name ∈ FRAME_NAMES then .ok (lib.frameRender name img)
  else .error (.badFrame name)

/-- The square center crop performed by `apply_thumbnail` before resizing:
`short = min w h`, offsets `(w-short)/2`, `(h-short)/2`. -/
def thumbCrop {C : Type} (img : Img C) : Img C :=
  let short := min img.w img.h
  let left := (img.w - short) / 2
  let top := (img.h - short) / 2
  ⟨short, short, fun x y => img.px (left + x) (top + y)⟩

/-- `apply_thumbnail`: range check, center crop to a square, then resize to
`size × size`. -/
def apply_thumbnail {C : Type} (lib : PixelLib C) (img : Img C) (size : Nat) :
    Except EditErr (Img C) :=
  match _clamp (size : ℚ) 16 4096 "thumbnail size" with
  | .error e => .error (.range e)
  | .ok _ => .ok (lib.resample (thumbCrop img) size size)

/-- The editor's keyword arguments (one record — Python keyword arguments
carry no order). -/
structure EditParams (C : Type) where
  auto_enhance : Bool := false
  brightness : Option ℚ := none
  contrast : Option ℚ := none
  saturation : Option ℚ := none
  sharpness : Option ℚ := none
  hue : Option ℚ := none
  filter_name : Option String := none
  flip : Option String := none
  border : Option Nat := none
  border_color : C
  frame : Option String := none
  thumbnail : Option Nat := none

/-- Stage 1 of `process_single` in `src/gimg/editor.py`: auto-enhance when
the flag is truthy. -/
def stage_auto {C : Type} (lib : PixelLib C) (flag : Bool) (i : Img C) :
    Except EditErr (Img C) :=
  .ok (if flag then lib.autoEnhance i else i)

/-- Stage 2a: brightness when supplied (`is not None`). -/
def stage_brightness {C : Type} (lib : PixelLib C) (o : Option ℚ) (i : Img C) :
    Except EditErr (Img C) :=
  match o with
  | some f => apply_brightness lib i f
  | none => .ok i

/-- Stage 2b: contrast when supplied. -/
def stage_contrast {C : Type} (lib : PixelLib C) (o : Option ℚ) (i : Img C) :
    Except EditErr (Img C) :=
  match o with
  | some f => apply_contrast lib i f
  | none => .ok i

/-- Stage 2c: saturation when supplied. -/
def stage_saturation {C : Type} (lib : PixelLib C) (o : Option ℚ) (i : Img C) :
    Except EditErr (Img C) :=
  match o with
  | some f => apply_saturation lib i f
  | none => .ok i

/-- Stage 2d: sharpness when supplied. -/
def stage_sharpness {C : Type} (lib : PixelLib C) (o : Option ℚ) (i : Img C) :
    Except EditErr (Img C) :=
  match o with
  | some f => apply_sharpness lib i f
  | none => .ok i

/-- Stage 2e: hue when supplied. -/
def stage_hue {C : Type} (lib : PixelLib C) (o : Option ℚ) (i : Img C) :
    Except EditErr (Img C) :=
  match o with
  | some f => apply_hue lib i f
  | none => .ok i

/-- Stage 3: the single named filter when truthy (nonempty). -/
def stage_filter {C : Type} (lib : PixelLib C) (o : Option String) (i : Img C) :
    Except EditErr (Img C) :=
  match o with
  | some s => if s ≠ "" then apply_filter lib i s else .ok i
  | none => .ok i

/-- Stage 4: flip when truthy. -/
def stage_flip {C : Type} (o : Option String) (i : Img C) :
    Except EditErr (Img C) :=
  match o with
  | some s => if s ≠ "" then apply_flip i s else .ok i
  | none => .ok i

/-- Stage 5: border when truthy (a zero width is falsy and skipped). -/
def stage_border {C : Type} (o : Option Nat) (c : C) (i : Img C) :
    Except EditErr (Img C) :=
  match o with
  | some b => if b ≠ 0 then apply_border i b c else .ok i
  | none => .ok i

/-- Stage 6: frame when truthy. -/
def stage_frame {C : Type} (lib : PixelLib C) (o : Option String) (i : Img C) :
    Except EditErr (Img C) :=
  match o with
  | some s => if s ≠ "" then apply_frame lib i s else .ok i
  | none => .ok i

/-- Stage 7 (last): thumbnail when truthy. -/
def stage_thumbnail {C : Type} (lib : PixelLib C) (o : Option Nat) (i : Img C) :
    Except EditErr (Img C) :=
  match o with
  | some t => if t ≠ 0 then apply_thumbnail lib i t else .ok i
  | none => .ok i

/-- `process_single` from `src/gimg/editor.py`: the numbered stages in the
source's order — auto-enhance, the five adjustments, filter, flip, border,
frame, thumbnail (the initial palette-mode conversion and the final save are
input/output handling outside this model). -/
def process_single {C : Type} (lib : PixelLib C) (p : EditParams C)
    (img : Img C) : Except EditErr (Img C) :=
  (stage_auto lib p.auto_enhance img).bind fun i =>
  (stage_brightness lib p.brightness i).bind fun i =>
  (stage_contrast lib p.contrast i).bind fun i =>
  (stage_saturation lib p.saturation i).bind fun i =>
  (stage_sharpness lib p.sharpness i).bind fun i =>
  (stage_hue lib p.hue i).bind fun i =>
  (stage_filter lib p.filter_name i).bind fun i =>
  (stage_flip p.flip i).bind fun i =>
  (stage_border p.border p.border_color i).bind fun i =>
  (stage_frame lib p.frame i).bind fun i =>
  stage_thumbnail lib p.thumbnail i

/-- A single edit-pipeline transform, tagged with its parameters. -/
inductive EStep (C : Type)
  | auto
  | bright (f : ℚ)
  | contr (f : ℚ)
  | satur (f : ℚ)
  | sharp (f : ℚ)
  | hueS (d : ℚ)
  | filt (n : String)
  | flipS (d : String)
  | bord (b : Nat) (c : C)
  | fram (n : String)
  | thumb (s : Nat)

/-- Run one tagged transform. -/
def runStep {C : Type} (lib : PixelLib C) (i : Img C) :
    EStep C → Except EditErr (Img C)
  | .auto => .ok (lib.autoEnhance i)
  | .bright f => apply_brightness lib i f
  | .contr f => apply_contrast lib i f
  | .satur f => apply_saturation lib i f
  | .sharp f => apply_sharpness lib i f
  | .hueS d => apply_hue lib i d
  | .filt n => apply_filter lib i n
  | .flipS d => apply_flip i d
  | .bord b c => apply_border i b c
  | .fram n => apply_frame lib i n
  | .thumb s => apply_thumbnail lib i s

/-- Run a list of transforms left to right, stopping at the first error. -/
def runSteps {C : Type} (lib : PixelLib C) :
    Img C → List (EStep C) → Except EditErr (Img C)
  | img, [] => .ok img
  | img, st :: rest =>
    match runStep lib img st with
    | .error e => .error e
    | .ok i => runSteps lib i rest

/-- The single transform a present optional parameter contributes. -/
def optChunk {α β : Type} (o : Option α) (f : α → β) : List β :=
  match o with
  | some a => [f a]
  | none => []

/-- The single transform a present *and truthy* parameter contributes. -/
def optChunkT {α β : Type} (o : Option α) (tr : α → Prop) [DecidablePred tr]
    (f : α → β) : List β :=
  match o with
  | some a => if tr a then [f a] else []
  | none => []

/-- The ordered list of transforms a parameter record gives rise to — the
claim's fixed sequence, one chunk per parameter. -/
def plannedSteps {C : Type} (p : EditParams C) : List (EStep C) :=
  (if p.auto_enhance then [EStep.auto] else [])
  ++ optChunk p.brightness EStep.bright
  ++ optChunk p.contrast EStep.contr
  ++ optChunk p.saturation EStep.satur
  ++ optChunk p.sharpness EStep.sharp
  ++ optChunk p.hue EStep.hueS
  ++ optChunkT p.filter_name (fun s => s ≠ "") EStep.filt
  ++ optChunkT p.flip (fun s => s ≠ "") EStep.flipS
  ++ optChunkT p.border (fun b => b ≠ 0) (fun b => EStep.bord b p.border_color)
  ++ optChunkT p.frame (fun s => s ≠ "") EStep.fram
  ++ optChunkT p.thumbnail (fun t => t ≠ 0) EStep.thumb

/-- The full canonical sequence (every transform present), of which any
actual run is a sublist. -/
def fullSteps {C : Type} (p : EditParams C) : List (EStep C) :=
  [EStep.auto, EStep.bright (p.brightness.getD 1),
   EStep.contr (p.contrast.getD 1), EStep.satur (p.saturation.getD 1),
   EStep.sharp (p.sharpness.getD 1), EStep.hueS (p.hue.getD 0),
   EStep.filt (p.filter_name.getD ""), EStep.flipS (p.flip.getD ""),
   EStep.bord (p.border.getD 1) p.border_color,
   EStep.fram (p.frame.getD ""), EStep.thumb (p.thumbnail.getD 1)]

theorem except_bind_assoc {ε α β γ : Type} (e : Except ε α) (f : α → Except ε β)
    (g : β → Except ε γ) :
    (e.bind f).bind g = e.bind fun x => (f x).bind g := by
  cases e <;> rfl

theorem runSteps_append {C : Type} (lib : PixelLib C) (img : Img C)
    (l₁ l₂ : List (EStep C)) :
    runSteps lib img (l₁ ++ l₂)
      = (runSteps lib img l₁).bind fun m => runSteps lib m l₂ := by
  induction l₁ generalizing img with
  | nil => rfl
  | cons st rest ih =>
    simp only [List.cons_append, runSteps]
    cases runStep lib img st with
    | error e => rfl
    | ok i => exact ih i

theorem stage_auto_eq {C : Type} (lib : PixelLib C) (flag : Bool) (i : Img C) :
    stage_auto lib flag i
      = runSteps lib i (if flag then [EStep.auto] else []) := by
  cases flag <;> rfl

theorem stage_brightness_eq {C : Type} (lib : PixelLib C) (o : Option ℚ)
    (i : Img C) :
    stage_brightness lib o i = runSteps lib i (optChunk o EStep.bright) := by
  cases o with
  | none => rfl
  | some f =>
    simp only [stage_brightness, optChunk, runSteps, runStep]
    cases apply_brightness lib i f <;> rfl

theorem stage_contrast_eq {C : Type} (lib : PixelLib C) (o : Option ℚ)
    (i : Img C) :
    stage_contrast lib o i = runSteps lib i (optChunk o EStep.contr) := by
  cases o with
  | none => rfl
  | some f =>
    simp only [stage_contrast, optChunk, runSteps, runStep]
    cases apply_contrast lib i f <;> rfl

theorem stage_saturation_eq {C : Type} (lib : PixelLib C) (o : Option ℚ)
    (i : Img C) :
    stage_saturation lib o i = runSteps lib i (optChunk o EStep.satur) := by
  cases o with
  | none => rfl
  | some f =>
    simp only [stage_saturation, optChunk, runSteps, runStep]
    cases apply_saturation lib i f <;> rfl

theorem stage_sharpness_eq {C : Type} (lib : PixelLib C) (o : Option ℚ)
    (i : Img C) :
    stage_sharpness lib o i = runSteps lib i (optChunk o EStep.sharp) := by
  cases o with
  | none => rfl
  | some f =>
    simp only [stage_sharpness, optChunk, runSteps, runStep]
    cases apply_sharpness lib i f <;> rfl

theorem stage_hue_eq {C : Type} (lib : PixelLib C) (o : Option ℚ) (i : Img C) :
    stage_hue lib o i = runSteps lib i (optChunk o EStep.hueS) := by
  cases o with
  | none => rfl
  | some f =>
    simp only [stage_hue, optChunk, runSteps, runStep]
    cases apply_hue lib i f <;> rfl

theorem stage_filter_eq {C : Type} (lib : PixelLib C) (o : Option String)
    (i : Img C) :
    stage_filter lib o i
      = runSteps lib i (optChunkT o (fun s => s ≠ "") EStep.filt) := by
  cases o with
  | none => rfl
  | some s =>
    simp only [stage_filter, optChunkT]
    split_ifs with hs
    · simp only [runSteps, runStep]
      cases apply_filter lib i s <;> rfl
    · rfl

theorem stage_flip_eq {C : Type} (o : Option String) (i : Img C)
    (lib : PixelLib C) :
    stage_flip o i
      = runSteps lib i (optChunkT o (fun s => s ≠ "") EStep.flipS) := by
  cases o with
  | none => rfl
  | some s =>
    simp only [stage_flip, optChunkT]
    split_ifs with hs
    · simp only [runSteps, runStep]
      cases apply_flip i s <;> rfl
    · rfl

theorem stage_border_eq {C : Type} (o : Option Nat) (c : C) (i : Img C)
    (lib : PixelLib C) :
    stage_border o c i
      = runSteps lib i (optChunkT o (fun b => b ≠ 0)
          (fun b => EStep.bord b c)) := by
  cases o with
  | none => rfl
  | some b =>
    simp only [stage_border, optChunkT]
    split_ifs with hb
    · simp only [runSteps, runStep]
      cases apply_border i b c <;> rfl
    · rfl

theorem stage_frame_eq {C : Type} (lib : PixelLib C) (o : Option String)
    (i : Img C) :
    stage_frame lib o i
      = runSteps lib i (optChunkT o (fun s => s ≠ "") EStep.fram) := by
  cases o with
  | none => rfl
  | some s =>
    simp only [stage_frame, optChunkT]
    split_ifs with hs
    · simp only [runSteps, runStep]
      cases apply_frame lib i s <;> rfl
    · rfl

theorem stage_thumbnail_eq {C : Type} (lib : PixelLib C) (o : Option Nat)
    (i : Img C) :
    stage_thumbnail lib o i
      = runSteps lib i (optChunkT o (fun t => t ≠ 0) EStep.thumb) := by
  cases o with
  | none => rfl
  | some t =>
    simp only [stage_thumbnail, optChunkT]
    split_ifs with ht
    · simp only [runSteps, runStep]
      cases apply_thumbnail lib i t <;> rfl
    · rfl

theorem process_single_eq_runSteps {C : Type} (lib : PixelLib C)
    (p : EditParams C) (img : Img C) :
    process_single lib p img = runSteps lib img (plannedSteps p) := by
  simp only [process_single, plannedSteps, runSteps_append, except_bind_assoc,
    ← stage_auto_eq, ← stage_brightness_eq, ← stage_contrast_eq,
    ← stage_saturation_eq, ← stage_sharpness_eq, ← stage_hue_eq,
    ← stage_filter_eq, ← stage_flip_eq, ← stage_border_eq, ← stage_frame_eq,
    ← stage_thumbnail_eq]

theorem plannedSteps_sublist {C : Type} (p : EditParams C) :
    List.Sublist (plannedSteps p) (fullSteps p) := by
  have h1 : List.Sublist (if p.auto_enhance then [EStep.auto (C := C)] else [])
      [EStep.auto] := by
    split_ifs
    · exact List.Sublist.refl _
    · exact List.nil_sublist _
  have hq : ∀ (o : Option ℚ) (f : ℚ → EStep C) (d : ℚ),
      List.Sublist (optChunk o f) [f (o.getD d)] := by
    intro o f d
    cases o
    · exact List.nil_sublist _
    · exact List.Sublist.refl _
  have hts : ∀ (o : Option String) (f : String → EStep C),
      List.Sublist (optChunkT o (fun s => s ≠ "") f) [f (o.getD "")] := by
    intro o f
    cases o with
    | none => exact List.nil_sublist _
    | some s =>
      simp only [optChunkT, Option.getD_some]
      split_ifs
      · exact List.Sublist.refl _
      · exact List.nil_sublist _
  have htn : ∀ (o : Option Nat) (f : Nat → EStep C) (d : Nat),
      List.Sublist (optChunkT o (fun n => n ≠ 0) f) [f (o.getD d)] := by
    intro o f d
    cases o with
    | none => exact List.nil_sublist _
    | some n =>
      simp only [optChunkT, Option.getD_some]
      split_ifs
      · exact List.Sublist.refl _
      · exact List.nil_sublist _
  exact ((((((((((h1.append (hq p.brightness EStep.bright 1)).append
    (hq p.contrast EStep.contr 1)).append
    (hq p.saturation EStep.satur 1)).append
    (hq p.sharpness EStep.sharp 1)).append
    (hq p.hue EStep.hueS 0)).append
    (hts p.filter_name EStep.filt)).append
    (hts p.flip EStep.flipS)).append
    (htn p.border (fun b => EStep.bord b p.border_color) 1)).append
    (hts p.frame EStep.fram)).append
    (htn p.thumbnail EStep.thumb 1))

theorem runStep_thumb_dims {C : Type} (lib : PixelLib C) (i out : Img C)
    (s : Nat) (h : runStep lib i (EStep.thumb s) = .ok out) :
    out.w = s ∧ out.h = s := by
  simp only [runStep, apply_thumbnail] at h
  rcases hc : _clamp (s : ℚ) 16 4096 "thumbnail size" with e | v
  · rw [hc] at h
    exact absurd h (by simp)
  · rw [hc] at h
    simp only [Except.ok.injEq] at h
    subst h
    exact ⟨lib.resample_w _ _ _, lib.resample_h _ _ _⟩

theorem process_single_thumb_dims {C : Type} (lib : PixelLib C)
    (p : EditParams C) (img out : Img C) (s : Nat)
    (hth : p.thumbnail = some s) (hs : s ≠ 0)
    (hok : process_single lib p img = .ok out) : out.w = s ∧ out.h = s := by
  rw [process_single_eq_runSteps] at hok
  have hpre : plannedSteps p
      = ((if p.auto_enhance then [EStep.auto] else [])
        ++ optChunk p.brightness EStep.bright
        ++ optChunk p.contrast EStep.contr
        ++ optChunk p.saturation EStep.satur
        ++ optChunk p.sharpness EStep.sharp
        ++ optChunk p.hue EStep.hueS
        ++ optChunkT p.filter_name (fun s => s ≠ "") EStep.filt
        ++ optChunkT p.flip (fun s => s ≠ "") EStep.flipS
        ++ optChunkT p.border (fun b => b ≠ 0)
            (fun b => EStep.bord b p.border_color)
        ++ optChunkT p.frame (fun s => s ≠ "") EStep.fram)
        ++ [EStep.thumb s] := by
    simp [plannedSteps, hth, optChunkT, hs]
  rw [hpre, runSteps_append] at hok
  rcases hmid : runSteps lib img _ with e | mid
  · rw [hmid] at hok
    exact absurd hok (by simp [Except.bind])
  · rw [hmid] at hok
    simp only [Except.bind] at hok
    rcases hrs : runStep lib mid (EStep.thumb s) with e2 | i2
    · simp only [runSteps, hrs] at hok
      exact absurd hok (by simp)
    · simp only [runSteps, hrs] at hok
      simp only [Except.ok.injEq] at hok
      subst hok
      exact runStep_thumb_dims lib mid i2 s hrs

theorem thumbCrop_border_px {C : Type} (img : Img C) (b : Nat) (c : C)
    (hb : 1 ≤ b) :
    (thumbCrop (border_expand img b c)).px 0 0 = c := by
  simp only [thumbCrop, border_expand]
  rcases le_total img.w img.h with hwh | hwh
  · have hmin : min (img.w + 2 * b) (img.h + 2 * b) = img.w + 2 * b := by
      omega
    rw [hmin]
    rw [if_pos]
    omega
  · have hmin : min (img.w + 2 * b) (img.h + 2 * b) = img.h + 2 * b := by
      omega
    rw [hmin]
    rw [if_pos]
    omega

/-- Nearest-neighbour resampling: one concrete dimension-honest
implementation of the library's resize contract. -/
def resampleNN (i : Img Nat) (a b : Nat) : Img Nat :=
  ⟨a, b, fun x y => i.px (x * i.w / a) (y * i.h / b)⟩

/-- A concrete pixel library over `Nat` colors: identity enhancements and
nearest-neighbour resampling — enough to exercise the pipeline end to end. -/
def libNN : PixelLib Nat where
  autoEnhance := id
  enhanceBrightness := fun _ i => i
  enhanceContrast := fun _ i => i
  enhanceSaturation := fun _ i => i
  enhanceSharpness := fun _ i => i
  hueShift := fun _ i => i
  filt := fun _ i => i
  frameRender := fun _ i => i
  resample := resampleNN
  resample_w := fun _ _ _ => rfl
  resample_h := fun _ _ _ => rfl

/-- A 100×100 image whose every pixel has color 0 (distinct from the border
color 1 used below). -/
def img100 : Img Nat := ⟨100, 100, fun _ _ => 0⟩

/-- The edit request of the claim's scenario: border 10 (color 1) and
thumbnail 100, nothing else. -/
def pBorderThumb : EditParams Nat :=
  { border := some 10, border_color := 1, thumbnail := some 100 }

/-- C1 (counterexample). Editing a uniformly 0-colored 100×100 image with
border 10 (color 1) and thumbnail 100 yields a 100×100 result whose corner
pixel *is* the border color: the center crop `apply_thumbnail` performs is
the whole 120×120 bordered square, so the border is scaled into the
thumbnail, not cropped away — refuting "no border remaining at the edges"
(the 100×100 dimension part does hold). -/
theorem edit_border_thumb_counterexample :
    (process_single libNN pBorderThumb img100).toOption.map
        (fun o => (o.w, o.h, o.px 0 0)) = some (100, 100, 1)
    ∧ (thumbCrop (border_expand img100 10 1)).w = 120
    ∧ (thumbCrop (border_expand img100 10 1)).h = 120
    ∧ (thumbCrop (border_expand img100 10 1)).px 0 0 = 1
    ∧ img100.px 0 0 = 0 :=
  ⟨rfl, rfl, rfl, rfl, rfl⟩

/-- C1 (amended). The edit processor applies its transforms in the fixed
order auto-enhance, brightness, contrast, saturation, sharpness, hue,
filter, flip, border, frame, thumbnail, regardless of how the keyword
arguments were supplied (the parameter record is unordered): every run
equals the fold of its planned step list, which is always a sublist of the
canonical full sequence; with a thumbnail requested the final image is
exactly size×size; and the square center crop of a bordered image always
retains the border color at its corner (the border is rescaled into the
thumbnail rather than removed). -/
theorem process_single_fixed_order {C : Type} (lib : PixelLib C)
    (p : EditParams C) (img : Img C) :
    process_single lib p img = runSteps lib img (plannedSteps p)
    ∧ List.Sublist (plannedSteps p) (fullSteps p)
    ∧ (∀ s out, p.thumbnail = some s → s ≠ 0 →
        process_single lib p img = .ok out → out.w = s ∧ out.h = s)
    ∧ (∀ b c, 1 ≤ b → (thumbCrop (border_expand img b c)).px 0 0 = c) :=
  ⟨process_single_eq_runSteps lib p img, plannedSteps_sublist p,
   fun s out hth hs hok => process_single_thumb_dims lib p img out s hth hs hok,
   fun b c hb => thumbCrop_border_px img b c hb⟩

/-- Witness for `process_single_fixed_order`: the concrete border-10 /
thumbnail-100 run on the 100×100 image. -/
theorem process_single_fixed_order_witness :
    (resampleNN (thumbCrop (border_expand img100 10 1)) 100 100).w = 100
    ∧ (resampleNN (thumbCrop (border_expand img100 10 1)) 100 100).h = 100
    ∧ (thumbCrop (border_expand img100 10 1)).px 0 0 = 1 :=
  ⟨((process_single_fixed_order libNN pBorderThumb img100).2.2.1 100 _ rfl
      (by norm_num) rfl).1,
   ((process_single_fixed_order libNN pBorderThumb img100).2.2.1 100 _ rfl
      (by norm_num) rfl).2,
   (process_single_fixed_order libNN pBorderThumb img100).2.2.2 10 1
      (by norm_num)⟩

/-- The keyword arguments `process_single` in `src/gimg/compress.py` builds
for the library's `save` call, per output extension. -/
structure SaveArgs where
  optimize : Bool
  quality : Option Int
  progressive : Bool
  compress_level : Option Nat
  method : Option Nat
  deriving DecidableEq, Repr

/-- The save-argument assembly of `src/gimg/compress.py`: quality flows to
JPEG/WEBP/other saves untouched — there is no range check and no error
path in this function. -/
def compress_save_args (quality : Int) (out_ext : String) : SaveArgs :=
  if out_ext = ".jpg" ∨ out_ext = ".jpeg" then
    ⟨true, some quality, true, none, none⟩
  else if out_ext = ".png" then ⟨true, none, false, some 9, none⟩
  else if out_ext = ".webp" then ⟨true, some quality, false, none, some 6⟩
  else ⟨true, some quality, false, none, none⟩

/-- Python `int()` truncation toward zero on a rational. -/
def pytrunc (q : ℚ) : Int := if 0 ≤ q then ⌊q⌋ else -⌊-q⌋

/-- `alpha = int(opacity * 255)` from `src/gimg/watermark.py` — again with
no range check on opacity. -/
def wm_alpha (opacity : ℚ) : Int := pytrunc (opacity * 255)

/-- C5 (counterexample). `gimg compress -q 200`: the out-of-range quality 200
(domain 1–100) reaches the library's save arguments unchanged — no
`ParameterRangeError` is possible since `compress_save_args` has no error
path; likewise watermark opacity 2.0 (domain 0.0–1.0) becomes alpha 510. -/
theorem compress_quality_unchecked :
    (compress_save_args 200 ".jpg").quality = some 200
    ∧ ¬ ((1 : Int) ≤ 200 ∧ (200 : Int) ≤ 100)
    ∧ wm_alpha 2 = 510
    ∧ ¬ ((0 : ℚ) ≤ 2 ∧ (2 : ℚ) ≤ 1) := by
  refine ⟨rfl, by norm_num, ?_, by norm_num⟩
  norm_num [wm_alpha, pytrunc]

/-- C5 (amended). Inside the editor every bounded numeric parameter is
range-checked by `_clamp` before the library call, and a violation carries
the parameter's name, bounds, and offending value; in particular the spec's
brightness-11.0 instance errors.  (Compress quality and watermark opacity
are *not* checked anywhere in the repository — see the counterexample.) -/
theorem edit_params_range_checked {C : Type} (lib : PixelLib C) (img : Img C)
    (f d : ℚ) (b s : Nat) (c : C) :
    (∀ v lo hi n, _clamp v lo hi n
      = if v < lo ∨ hi < v then .error ⟨n, lo, hi, v⟩ else .ok v)
    ∧ apply_brightness lib img f
      = (if f < 0 ∨ 10 < f then .error (.range ⟨"brightness", 0, 10, f⟩)
         else .ok (lib.enhanceBrightness f img))
    ∧ apply_contrast lib img f
      = (if f < 0 ∨ 10 < f then .error (.range ⟨"contrast", 0, 10, f⟩)
         else .ok (lib.enhanceContrast f img))
    ∧ apply_saturation lib img f
      = (if f < 0 ∨ 10 < f then .error (.range ⟨"saturation", 0, 10, f⟩)
         else .ok (lib.enhanceSaturation f img))
    ∧ apply_sharpness lib img f
      = (if f < 0 ∨ 10 < f then .error (.range ⟨"sharpness", 0, 10, f⟩)
         else .ok (lib.enhanceSharpness f img))
    ∧ apply_hue lib img d
      = (if d < -180 ∨ 180 < d then .error (.range ⟨"hue", -180, 180, d⟩)
         else .ok (lib.hueShift d img))
    ∧ apply_border img b c
      = (if (b : ℚ) < 1 ∨ 500 < (b : ℚ)
         then .error (.range ⟨"border", 1, 500, (b : ℚ)⟩)
         else .ok (border_expand img b c))
    ∧ apply_thumbnail lib img s
      = (if (s : ℚ) < 16 ∨ 4096 < (s : ℚ)
         then .error (.range ⟨"thumbnail size", 16, 4096, (s : ℚ)⟩)
         else .ok (lib.resample (thumbCrop img) s s))
    ∧ apply_brightness lib img 11
      = .error (.range ⟨"brightness", 0, 10, 11⟩) := by
  refine ⟨fun v lo hi n => rfl, ?_, ?_, ?_, ?_, ?_, ?_, ?_, ?_⟩ <;>
    · simp only [apply_brightness, apply_contrast, apply_saturation,
        apply_sharpness, apply_hue, apply_border, apply_thumbnail, _clamp]
      first
        | (split_ifs <;> rfl)
        | norm_num

/-- The request-scoped filesystem view: live temp files and the next id
`tempfile.mkstemp` will hand out. -/
structure TempFS where
  live : List Nat
  next : Nat
  deriving DecidableEq, Repr

/-- `tempfile.mkstemp`: create a fresh temp file. -/
def mkstemp (fs : TempFS) : Nat × TempFS :=
  (fs.next, ⟨fs.live ++ [fs.next], fs.next + 1⟩)

/-- `Path.unlink(missing_ok=True)`. -/
def unlink (fs : TempFS) (f : Nat) : TempFS := ⟨fs.live.erase f, fs.next⟩

/-- The `background` argument `_file_response` passes to `FileResponse` in
`src/api/main.py`: `None` — no post-send cleanup task is registered. -/
def file_response_background : Option Nat := none

/-- The temp-file lifecycle of the `api_compress` handler in
`src/api/main.py` (every file-returning handler has the same shape): stage
the upload, create the output, try to process; on failure unlink the output
and raise 500; in the `finally` block unlink the input; on success return a
`FileResponse` for the output with `background=None`.  Returns the final
filesystem state and the response (`ok` with the streamed file's id, or the
error status). -/
def api_compress_run (fs0 : TempFS) (processOk : Bool) :
    TempFS × Except Nat Nat :=
  let r1 := mkstemp fs0
  let inp := r1.1
  let r2 := mkstemp r1.2
  let out := r2.1
  let fs2 := r2.2
  if processOk then
    (unlink fs2 inp, .ok out)
  else
    (unlink (unlink fs2 out) inp, .error 500)

/-- C9 (counterexample). On a successful request the staged output temp file
survives the handler: with a fresh request state, processing success leaves
file 1 (the output) live after the response is built, because
`_file_response` passes `background=None` and nothing else deletes it. -/
theorem api_compress_leaks_output_on_success :
    (api_compress_run ⟨[], 0⟩ true).1.live = [1]
    ∧ (api_compress_run ⟨[], 0⟩ true).2 = .ok 1
    ∧ file_response_background = none :=
  ⟨rfl, rfl, rfl⟩

/-- C9 (amended). The staged upload input is unlinked on every exit path
(success and failure); the staged output is unlinked when processing raises,
but on success it remains on disk after the request (streamed with
`background=None` and never deleted by the handler). -/
theorem api_compress_temp_cleanup (ok : Bool) :
    (0 ∉ (api_compress_run ⟨[], 0⟩ ok).1.live)
    ∧ (api_compress_run ⟨[], 0⟩ ok).1.live = (if ok then [1] else [])
    ∧ ((api_compress_run ⟨[], 0⟩ ok).2
        = if ok then .ok 1 else .error 500) := by
  cases ok <;> refine ⟨?_, rfl, rfl⟩ <;> decide
